import Mathlib

/- Verification development for the Pulser tutorial repository.

The repository ships two tutorial notebooks exercising the Pulser library:
a JSON serialization walkthrough for pulse sequences, and a SPAM-noise
simulation walkthrough.  The library implementation itself (the `Sequence`
serialization engine and the `pulser_simulation` noise machinery) is not part
of the provided sources, so those operations are modelled here from the
specification's and the notebooks' own descriptions; the notebooks' code
cells, which are the provided sources, are embedded directly. -/

namespace PulserSpec

/-! ## Character-level utilities for the JSON text model -/

/-- Whitespace characters that a JSON scanner skips between tokens. -/
def isWsChar (c : Char) : Bool :=
  decide (c = ' ' ∨ c = '\n' ∨ c = '\t' ∨ c = '\r')

/-- Decimal digit test used by the JSON number scanner. -/
def isDigitC (c : Char) : Bool :=
  decide ('0' ≤ c ∧ c ≤ '9')

/-- Opening curly brace character. -/
def lbr : Char := Char.ofNat 123

/-- Closing curly brace character. -/
def rbr : Char := Char.ofNat 125

/-- Drop leading whitespace. -/
def skipWs : List Char → List Char
  | [] => []
  | c :: cs => if isWsChar c then skipWs cs else c :: cs

/-- Consume an exact expected character sequence, returning the remainder. -/
def expectP : List Char → List Char → Option (List Char)
  | [], s => some s
  | _ :: _, [] => none
  | p :: ps, c :: cs => if c = p then expectP ps cs else none

/-- Decimal digits of a natural number, most significant first. -/
def natDigits (n : Nat) : List Char :=
  if h : n < 10 then [Nat.digitChar n]
  else natDigits (n / 10) ++ [Nat.digitChar (n % 10)]
termination_by n
decreasing_by
  exact Nat.div_lt_self (by omega) (by omega)

/-- Numeric value of a decimal digit character. -/
def digitVal (c : Char) : Nat := c.toNat - 48

/-- Value of a most-significant-first decimal digit string. -/
def digitsToNat (ds : List Char) : Nat :=
  ds.foldl (fun acc c => 10 * acc + digitVal c) 0

/-- Split a character list into its maximal leading digit run and the rest. -/
def takeDigits : List Char → List Char × List Char
  | [] => ([], [])
  | c :: cs =>
    if isDigitC c then
      let p := takeDigits cs
      (c :: p.1, p.2)
    else ([], c :: cs)

/-- Scan a (non-empty) decimal numeral at the head of the input. -/
def parseNum (s : List Char) : Option (Nat × List Char) :=
  let p := takeDigits s
  if p.1.isEmpty then none else some (digitsToNat p.1, p.2)

/-- Scan the body of a JSON string literal up to its closing quote. -/
def parseStrL : List Char → Option (List Char × List Char)
  | [] => none
  | c :: r =>
    if c = '"' then some ([], r)
    else (parseStrL r).map (fun p => (c :: p.1, p.2))

/-! ## The JSON value model

JSON values, with arrays and objects as dedicated mutual list types so that
mutual induction over values is direct. -/

mutual
inductive Json where
  | jnull : Json
  | jbool (b : Bool) : Json
  | jnum (n : Int) : Json
  | jstr (s : String) : Json
  | jarr (a : JsonArr) : Json
  | jobj (o : JsonObj) : Json
inductive JsonArr where
  | nil : JsonArr
  | cons (hd : Json) (tl : JsonArr) : JsonArr
inductive JsonObj where
  | nil : JsonObj
  | cons (k : String) (v : Json) (tl : JsonObj) : JsonObj
end

/-! Parser fuel demanded by a value (an upper bound on recursion depth). -/

mutual
def jsize : Json → Nat
  | .jnull => 1
  | .jbool _ => 1
  | .jnum _ => 1
  | .jstr _ => 1
  | .jarr a => asize a + 1
  | .jobj o => osize o + 1
def asize : JsonArr → Nat
  | .nil => 0
  | .cons hd tl => jsize hd + asize tl + 1
def osize : JsonObj → Nat
  | .nil => 0
  | .cons _ v tl => jsize v + osize tl + 1
end

/-- A character allowed inside a string literal of the emitted JSON:
no quote and no backslash (the model emits no escape sequences). -/
def wfChar (c : Char) : Bool := !decide (c = '"') && !decide (c = '\\')

/-- All characters of the string are plain string-literal characters. -/
def wfStr (s : String) : Bool := s.data.all wfChar

mutual
def wfJ : Json → Bool
  | .jnull => true
  | .jbool _ => true
  | .jnum _ => true
  | .jstr s => wfStr s
  | .jarr a => wfA a
  | .jobj o => wfO o
def wfA : JsonArr → Bool
  | .nil => true
  | .cons hd tl => wfJ hd && wfA tl
def wfO : JsonObj → Bool
  | .nil => true
  | .cons k v tl => wfStr k && wfJ v && wfO tl
end

/-! ## Rendering JSON values to text

`sep` is the whitespace block inserted after structural tokens; it models the
`indent` dumping option of `json.dumps`. -/

mutual
def renderV (sep : List Char) : Json → List Char
  | .jnull => ['n', 'u', 'l', 'l']
  | .jbool true => ['t', 'r', 'u', 'e']
  | .jbool false => ['f', 'a', 'l', 's', 'e']
  | .jnum n => if n < 0 then '-' :: natDigits n.natAbs else natDigits n.toNat
  | .jstr s => '"' :: s.data ++ ['"']
  | .jarr a => '[' :: sep ++ renderA sep a ++ [']']
  | .jobj o => lbr :: sep ++ renderO sep o ++ [rbr]
def renderA (sep : List Char) : JsonArr → List Char
  | .nil => []
  | .cons hd .nil => renderV sep hd
  | .cons hd (.cons hd2 tl) =>
      renderV sep hd ++ ',' :: sep ++ renderA sep (.cons hd2 tl)
def renderO (sep : List Char) : JsonObj → List Char
  | .nil => []
  | .cons k v .nil => '"' :: k.data ++ '"' :: ':' :: sep ++ renderV sep v
  | .cons k v (.cons k2 v2 tl) =>
      '"' :: k.data ++ '"' :: ':' :: sep ++ renderV sep v ++
        ',' :: sep ++ renderO sep (.cons k2 v2 tl)
end

/-! ## Parsing JSON text

A fuelled recursive-descent scanner; `parseV` parses one JSON value and
returns it with the unconsumed remainder of the input. -/

mutual
def parseV : Nat → List Char → Option (Json × List Char)
  | 0, _ => none
  | fuel + 1, s => parseTok fuel (skipWs s)
def parseTok : Nat → List Char → Option (Json × List Char)
  | _, [] => none
  | fuel, c :: r =>
    if isDigitC c then
      (parseNum (c :: r)).map (fun p => (Json.jnum (Int.ofNat p.1), p.2))
    else if c = '-' then
      (parseNum r).map (fun p => (Json.jnum (-(p.1 : Int)), p.2))
    else if c = 'n' then
      (expectP ['u', 'l', 'l'] r).map (fun r2 => (Json.jnull, r2))
    else if c = 't' then
      (expectP ['r', 'u', 'e'] r).map (fun r2 => (Json.jbool true, r2))
    else if c = 'f' then
      (expectP ['a', 'l', 's', 'e'] r).map (fun r2 => (Json.jbool false, r2))
    else if c = '"' then
      (parseStrL r).map (fun p => (Json.jstr (String.mk p.1), p.2))
    else if c = '[' then parseArrBody fuel (skipWs r)
    else if c = lbr then parseObjBody fuel (skipWs r)
    else none
def parseArrBody : Nat → List Char → Option (Json × List Char)
  | _, [] => none
  | fuel, c :: r =>
    if c = ']' then some (Json.jarr JsonArr.nil, r)
    else (parseElems fuel (c :: r)).map (fun p => (Json.jarr p.1, p.2))
def parseObjBody : Nat → List Char → Option (Json × List Char)
  | _, [] => none
  | fuel, c :: r =>
    if c = rbr then some (Json.jobj JsonObj.nil, r)
    else (parseFields fuel (c :: r)).map (fun p => (Json.jobj p.1, p.2))
def parseElems : Nat → List Char → Option (JsonArr × List Char)
  | 0, _ => none
  | fuel + 1, s =>
    (parseV fuel s).bind (fun p => elemsTail fuel p.1 (skipWs p.2))
def elemsTail : Nat → Json → List Char → Option (JsonArr × List Char)
  | _, _, [] => none
  | fuel, v, c :: r =>
    if c = ',' then (parseElems fuel r).map (fun p => (JsonArr.cons v p.1, p.2))
    else if c = ']' then some (JsonArr.cons v JsonArr.nil, r)
    else none
def parseFields : Nat → List Char → Option (JsonObj × List Char)
  | 0, _ => none
  | fuel + 1, s => fieldsStart fuel (skipWs s)
def fieldsStart : Nat → List Char → Option (JsonObj × List Char)
  | _, [] => none
  | fuel, c :: r =>
    if c = '"' then
      (parseStrL r).bind (fun pk => fieldColon fuel (String.mk pk.1) (skipWs pk.2))
    else none
def fieldColon : Nat → String → List Char → Option (JsonObj × List Char)
  | _, _, [] => none
  | fuel, k, c :: r =>
    if c = ':' then
      (parseV fuel r).bind (fun pv => fieldsTail fuel k pv.1 (skipWs pv.2))
    else none
def fieldsTail : Nat → String → Json → List Char → Option (JsonObj × List Char)
  | _, _, _, [] => none
  | fuel, k, v, c :: r =>
    if c = ',' then (parseFields fuel r).map (fun p => (JsonObj.cons k v p.1, p.2))
    else if c = rbr then some (JsonObj.cons k v JsonObj.nil, r)
    else none
end

/-- Parse a complete JSON text: one value consuming the entire input. -/
def parseJsonText (s : String) : Option Json :=
  match parseV (s.data.length + 1) s.data with
  | some (j, []) => some j
  | _ => none

/-- The remainder may safely follow a numeral: it is empty or starts with a
non-digit, so the greedy digit scanner stops exactly at the boundary. -/
def delimOk : List Char → Bool
  | [] => true
  | c :: _ => !isDigitC c

/-! ## The pulse-sequence data model

Modelled from the spec: the notebooks build sequences through the `Sequence`
API of the external Pulser library (a register of qubit coordinates, declared
channels, declared variables, and appended pulse/target/align/measure
operations).  The library implementation is not part of the given sources, so
the object model is reconstructed here from the API calls the notebooks make.
Numeric pulse parameters (phases and areas appear in the notebooks as
multiples of pi/2) are carried as integers in those units. -/

/-- Modelled from the spec: a register assigns planar coordinates to named
qubits, as in `Register({"control": (-2, 0), "target": (2, 0)})`. -/
structure Register where
  qubits : List (String × Int × Int)
deriving DecidableEq

/-- Modelled from the spec: a sequence parameter is either a literal constant
or a reference to a variable declared with `declare_variable` and bound only
at `build` time. -/
inductive Expr where
  | const (n : Int)
  | var (name : String)
deriving DecidableEq

/-- Modelled from the spec: the waveforms the notebooks construct —
`BlackmanWaveform(duration, area)` and the constant waveform underlying
`Pulse.ConstantPulse(duration, value, ...)`. -/
inductive Waveform where
  | blackman (duration area : Expr)
  | constant (duration value : Expr)
deriving DecidableEq

/-- Modelled from the spec: a pulse of constant detuning, as built by
`Pulse.ConstantDetuning(amplitude, detuning, phase)`. -/
structure Pulse where
  amplitude : Waveform
  detuning : Expr
  phase : Expr
deriving DecidableEq

/-- Modelled from the spec: the sequence-building operations the notebooks
invoke: `add`, `target`, `align` and `measure`. -/
inductive SeqOp where
  | add (p : Pulse) (channel : String)
  | target (qubit channel : String)
  | align (ch1 ch2 : String)
  | measure (basis : String)
deriving DecidableEq

/-- Modelled from the spec: a channel declared with `declare_channel(name,
kind, initial_target=...)`. -/
structure Channel where
  name : String
  kind : String
  initialTarget : Option String
deriving DecidableEq

/-- Modelled from the spec: a pulse sequence built through the `Sequence`
API: its register, device, declared variables and channels, and the ordered
list of operations. -/
structure Sequence where
  register : Register
  device : String
  vars : List String
  channels : List Channel
  ops : List SeqOp
deriving DecidableEq

/-- Value bound to a variable name at `build` time (unbound names default). -/
def lookupVar (vals : List (String × Int)) (x : String) : Int :=
  match vals.find? (fun p => p.1 == x) with
  | some p => p.2
  | none => 0

def Expr.subst (vals : List (String × Int)) : Expr → Expr
  | .const n => .const n
  | .var x => .const (lookupVar vals x)

def Waveform.subst (vals : List (String × Int)) : Waveform → Waveform
  | .blackman d a => .blackman (d.subst vals) (a.subst vals)
  | .constant d v => .constant (d.subst vals) (v.subst vals)

def Pulse.subst (vals : List (String × Int)) (p : Pulse) : Pulse :=
  ⟨p.amplitude.subst vals, p.detuning.subst vals, p.phase.subst vals⟩

def SeqOp.subst (vals : List (String × Int)) : SeqOp → SeqOp
  | .add p ch => .add (p.subst vals) ch
  | .target q ch => .target q ch
  | .align c1 c2 => .align c1 c2
  | .measure b => .measure b

/-- Modelled from the spec: `seq.build(pulse_time=200)` substitutes the given
values for the declared variables, producing a concrete sequence. -/
def Sequence.build (vals : List (String × Int)) (s : Sequence) : Sequence :=
  { s with vars := [], ops := s.ops.map (SeqOp.subst vals) }

/-! ## Encoding a sequence as a JSON value -/

def listToArr : List Json → JsonArr
  | [] => .nil
  | j :: js => .cons j (listToArr js)

def arrToList : JsonArr → List Json
  | .nil => []
  | .cons j js => j :: arrToList js

/-- Field lookup in a JSON object. -/
def getField : JsonObj → String → Option Json
  | .nil, _ => none
  | .cons k v tl, key => if k = key then some v else getField tl key

def asStr : Json → Option String
  | .jstr s => some s
  | _ => none

def encodeExpr : Expr → Json
  | .const n => .jnum n
  | .var x => .jobj (.cons "variable" (.jstr x) .nil)

def decodeExpr : Json → Option Expr
  | .jnum n => some (.const n)
  | .jobj (.cons k v .nil) =>
    if k = "variable" then
      match v with
      | .jstr x => some (.var x)
      | _ => none
    else none
  | _ => none

def encodeWaveform : Waveform → Json
  | .blackman d a =>
    .jobj (.cons "kind" (.jstr "blackman")
      (.cons "duration" (encodeExpr d) (.cons "area" (encodeExpr a) .nil)))
  | .constant d v =>
    .jobj (.cons "kind" (.jstr "constant")
      (.cons "duration" (encodeExpr d) (.cons "value" (encodeExpr v) .nil)))

def decodeWaveform : Json → Option Waveform
  | .jobj o =>
    match getField o "kind" with
    | some (.jstr kd) =>
      if kd = "blackman" then
        match getField o "duration", getField o "area" with
        | some dj, some aj =>
          match decodeExpr dj, decodeExpr aj with
          | some d, some a => some (.blackman d a)
          | _, _ => none
        | _, _ => none
      else if kd = "constant" then
        match getField o "duration", getField o "value" with
        | some dj, some vj =>
          match decodeExpr dj, decodeExpr vj with
          | some d, some v => some (.constant d v)
          | _, _ => none
        | _, _ => none
      else none
    | _ => none
  | _ => none

def encodePulse (p : Pulse) : Json :=
  .jobj (.cons "amplitude" (encodeWaveform p.amplitude)
    (.cons "detuning" (encodeExpr p.detuning) (.cons "phase" (encodeExpr p.phase) .nil)))

def decodePulse : Json → Option Pulse
  | .jobj o =>
    match getField o "amplitude", getField o "detuning", getField o "phase" with
    | some aj, some dj, some pj =>
      match decodeWaveform aj, decodeExpr dj, decodeExpr pj with
      | some a, some d, some ph => some ⟨a, d, ph⟩
      | _, _, _ => none
    | _, _, _ => none
  | _ => none

def encodeOp : SeqOp → Json
  | .add p ch =>
    .jobj (.cons "op" (.jstr "add")
      (.cons "pulse" (encodePulse p) (.cons "channel" (.jstr ch) .nil)))
  | .target q ch =>
    .jobj (.cons "op" (.jstr "target")
      (.cons "qubit" (.jstr q) (.cons "channel" (.jstr ch) .nil)))
  | .align c1 c2 =>
    .jobj (.cons "op" (.jstr "align")
      (.cons "ch1" (.jstr c1) (.cons "ch2" (.jstr c2) .nil)))
  | .measure b =>
    .jobj (.cons "op" (.jstr "measure") (.cons "basis" (.jstr b) .nil))

def decodeOp : Json → Option SeqOp
  | .jobj o =>
    match getField o "op" with
    | some (.jstr t) =>
      if t = "add" then
        match getField o "pulse", getField o "channel" with
        | some pj, some (.jstr ch) =>
          match decodePulse pj with
          | some p => some (.add p ch)
          | none => none
        | _, _ => none
      else if t = "target" then
        match getField o "qubit", getField o "channel" with
        | some (.jstr q), some (.jstr ch) => some (.target q ch)
        | _, _ => none
      else if t = "align" then
        match getField o "ch1", getField o "ch2" with
        | some (.jstr c1), some (.jstr c2) => some (.align c1 c2)
        | _, _ => none
      else if t = "measure" then
        match getField o "basis" with
        | some (.jstr b) => some (.measure b)
        | _ => none
      else none
    | _ => none
  | _ => none

def encodeOptStr : Option String → Json
  | none => .jnull
  | some s => .jstr s

def decodeOptStr : Json → Option (Option String)
  | .jnull => some none
  | .jstr s => some (some s)
  | _ => none

def encodeChannel (c : Channel) : Json :=
  .jobj (.cons "name" (.jstr c.name)
    (.cons "kind" (.jstr c.kind) (.cons "target" (encodeOptStr c.initialTarget) .nil)))

def decodeChannel : Json → Option Channel
  | .jobj o =>
    match getField o "name", getField o "kind", getField o "target" with
    | some (.jstr nm), some (.jstr kd), some tj =>
      match decodeOptStr tj with
      | some tgt => some ⟨nm, kd, tgt⟩
      | none => none
    | _, _, _ => none
  | _ => none

def encodeQubit (q : String × Int × Int) : Json :=
  .jobj (.cons "name" (.jstr q.1) (.cons "x" (.jnum q.2.1) (.cons "y" (.jnum q.2.2) .nil)))

def decodeQubit : Json → Option (String × Int × Int)
  | .jobj o =>
    match getField o "name", getField o "x", getField o "y" with
    | some (.jstr nm), some (.jnum x), some (.jnum y) => some (nm, x, y)
    | _, _, _ => none
  | _ => none

def decodeList {α : Type} (dec : Json → Option α) : List Json → Option (List α)
  | [] => some []
  | j :: js => (dec j).bind (fun x => (decodeList dec js).map (fun xs => x :: xs))

def decodeListWith {α : Type} (dec : Json → Option α) : Json → Option (List α)
  | .jarr a => decodeList dec (arrToList a)
  | _ => none

def jsonAsObj : Json → Option JsonObj
  | .jobj o => some o
  | _ => none

/-- The schema fields common to both serialization formats. -/
def coreObj (s : Sequence) : JsonObj :=
  .cons "device" (.jstr s.device)
    (.cons "register" (.jarr (listToArr (s.register.qubits.map encodeQubit)))
      (.cons "variables" (.jarr (listToArr (s.vars.map Json.jstr)))
        (.cons "channels" (.jarr (listToArr (s.channels.map encodeChannel)))
          (.cons "operations" (.jarr (listToArr (s.ops.map encodeOp))) .nil))))

/-- Decode the common schema fields back into a sequence. -/
def decodeCore (o : JsonObj) : Option Sequence := do
  let dj ← getField o "device"
  let dev ← asStr dj
  let rj ← getField o "register"
  let qs ← decodeListWith decodeQubit rj
  let vj ← getField o "variables"
  let vars ← decodeListWith asStr vj
  let cj ← getField o "channels"
  let chs ← decodeListWith decodeChannel cj
  let oj ← getField o "operations"
  let ops ← decodeListWith decodeOp oj
  some ⟨⟨qs⟩, dev, vars, chs, ops⟩

/-- Options forwarded to `json.dumps` by both serialization entry points;
the notebooks use `indent`. -/
structure JsonDumpsOptions where
  indent : Option Nat
deriving DecidableEq

/-- Whitespace block corresponding to the dumping options. -/
def sepOf (opts : JsonDumpsOptions) : List Char :=
  match opts.indent with
  | none => []
  | some n => '\n' :: List.replicate n ' '

/-- Default dumping options: no indentation. -/
def defaultDumps : JsonDumpsOptions := ⟨none⟩

/-- All strings a sequence embeds into its JSON encoding are plain
string-literal characters (no quotes, no backslashes). -/
def wfSeq (s : Sequence) : Bool := wfO (coreObj s)

/-- Modelled from the spec: `seq.serialize(...)`, the former entry point
turning a `Sequence` into a JSON-formatted string; it accepts the optional
`json.dumps` parameters directly. -/
def Sequence.serialize (opts : JsonDumpsOptions) (s : Sequence) : String :=
  String.mk (renderV (sepOf opts)
    (Json.jobj (.cons "__version__" (.jnum 1) (coreObj s))))

/-- Modelled from the spec: `Sequence.deserialize`, recovering a sequence
from the JSON text produced by `serialize`. -/
def Sequence.deserialize (text : String) : Option Sequence :=
  (parseJsonText text).bind fun j =>
    (jsonAsObj j).bind fun o =>
      (getField o "__version__").bind fun _ => decodeCore o

/-- Modelled from the spec: `seq.to_abstract_repr(json_dumps_options=...,
seq_name=...)`, the favored serialization entry point; the optional arguments
define default documentation metadata in the JSON object (such as the
sequence name) and do not change the `Sequence` itself. -/
def Sequence.to_abstract_repr (opts : JsonDumpsOptions) (seqName : Option String)
    (s : Sequence) : String :=
  String.mk (renderV (sepOf opts)
    (Json.jobj (.cons "name" (.jstr (seqName.getD "pulser-exported")) (coreObj s))))

/-- Modelled from the spec: `Sequence.from_abstract_repr`, recovering a
sequence from the JSON text produced by `to_abstract_repr`. -/
def Sequence.from_abstract_repr (text : String) : Option Sequence :=
  (parseJsonText text).bind fun j => (jsonAsObj j).bind fun o => decodeCore o

/-! ## The concrete sequences built in the notebooks

Transcribed from the serialization notebook's Bell-state cell and the SPAM
notebook's single-atom cell.  Areas and phases are in units of pi/2; the
duration of `two_pi_wf` (computed by the library from `max_val`) is carried
as a literal constant. -/

def half_pi_wf : Waveform := .blackman (.var "pulse_time") (.const 1)

def ry : Pulse := ⟨half_pi_wf, .const 0, .const (-1)⟩

def ry_dag : Pulse := ⟨half_pi_wf, .const 0, .const 1⟩

def pi_wf : Waveform := .blackman (.var "pulse_time") (.const 2)

def pi_pulse : Pulse := ⟨pi_wf, .const 0, .const 0⟩

def two_pi_wf : Waveform := .blackman (.const 1000) (.const 4)

def two_pi_pulse : Pulse := ⟨two_pi_wf, .const 0, .const 0⟩

/-- The Bell-state sequence of the serialization notebook. -/
def bellSeq : Sequence where
  register := ⟨[("control", -2, 0), ("target", 2, 0)]⟩
  device := "Chadoq2"
  vars := ["pulse_time"]
  channels := [⟨"digital", "raman_local", some "control"⟩,
    ⟨"rydberg", "rydberg_local", some "control"⟩]
  ops := [.add ry "digital", .target "target" "digital", .add ry_dag "digital",
    .align "digital" "rydberg", .add pi_pulse "rydberg", .target "target" "rydberg",
    .add two_pi_pulse "rydberg", .target "control" "rydberg", .add pi_pulse "rydberg",
    .align "digital" "rydberg", .add ry "digital", .measure "digital"]

/-- The single-atom Rabi sequence of the SPAM notebook. -/
def spamSeq : Sequence where
  register := ⟨[("q0", 0, 0)]⟩
  device := "Chadoq2"
  vars := []
  channels := [⟨"channel 0", "rydberg_global", none⟩]
  ops := [.add ⟨.constant (.const 2500) (.const 4), .const 0, .const 0⟩ "channel 0"]

/-! ## The SPAM-noise simulation model

Modelled from the spec: the SPAM notebook configures the external simulator
through `SimConfig(noise="SPAM", eta=..., epsilon=..., epsilon_prime=...,
runs=..., samples_per_run=...)`, attaches it with `sim.set_config`, removes
it with `sim.reset_config`, and runs with `sim.run()`.  The simulator itself
is not part of the given sources; its behaviour is reconstructed from the
notebook's prose: a state-preparation error makes an atom unavailable for
the whole sequence (probability eta per run), measurement produces false
positives with rate epsilon and false negatives with rate epsilon_prime, and
the random sampling of badly prepared atoms is made explicit through a seed
argument. -/

/-- Modelled from the spec: the simulation configuration object with its
noise-category selector and named error-rate parameters (default rates as
cited by the notebook from De Leseleuc et al., 2018). -/
structure SimConfig where
  noise : List String
  eta : ℚ := 5 / 1000
  epsilon : ℚ := 1 / 100
  epsilon_prime : ℚ := 5 / 100
  runs : Nat := 15
  samples_per_run : Nat := 5
deriving DecidableEq

/-- Modelled from the spec: noiseless excited-state population of the
single-atom Rabi oscillation, discretized to 20 steps per period. -/
def cleanPop (t : Nat) : ℚ := ((min (t % 20) (20 - t % 20) : Nat) : ℚ) / 10

/-- Measurement with SPAM errors: false negatives at rate `epsilon_prime`,
false positives at rate `epsilon`. -/
def measured (cfg : SimConfig) (p : ℚ) : ℚ :=
  p * (1 - cfg.epsilon_prime) + (1 - p) * cfg.epsilon

/-- Modelled from the spec: the simulator's pseudo-random draw in [0, 1)
for run `i` under seed `seed`. -/
def randQ (seed i : Nat) : ℚ :=
  (((seed * 1664525 + i * 1013904223 + 12345) % 1000 : Nat) : ℚ) / 1000

/-- Run `i` prepares its atom correctly when the draw clears the
state-preparation error threshold `eta`. -/
def wellPrepared (seed : Nat) (cfg : SimConfig) (i : Nat) : Bool :=
  decide (cfg.eta ≤ randQ seed i)

/-- Number of runs whose atom was correctly prepared. -/
def goodCount (seed : Nat) (cfg : SimConfig) : Nat :=
  ((List.range cfg.runs).filter (wellPrepared seed cfg)).length

/-- Modelled from the spec: the population reported by a noisy simulation at
step `t` — badly prepared atoms are not used at all (they contribute the
measured ground state), the rest contribute the measured Rabi population,
averaged over the runs. -/
def noisyPop (seed : Nat) (cfg : SimConfig) (t : Nat) : ℚ :=
  ((goodCount seed cfg : ℚ) * measured cfg (cleanPop t) +
    ((cfg.runs : ℚ) - (goodCount seed cfg : ℚ)) * measured cfg 0) / (cfg.runs : ℚ)

/-- Modelled from the spec: the two kinds of results objects the notebook
names — `CoherentResults` and `NoisyResults` — each carrying the sampled
population curve. -/
inductive SimResults where
  | CoherentResults (samples : List (Nat × ℚ))
  | NoisyResults (samples : List (Nat × ℚ))
deriving DecidableEq

def SimResults.samples : SimResults → List (Nat × ℚ)
  | .CoherentResults s => s
  | .NoisyResults s => s

def SimResults.isCoherent : SimResults → Bool
  | .CoherentResults _ => true
  | .NoisyResults _ => false

def SimResults.isNoisy : SimResults → Bool
  | .CoherentResults _ => false
  | .NoisyResults _ => true

/-- Modelled from the spec: `results.plot(obs, ...)` renders the stored
population curve; the model returns the plotted points. -/
def SimResults.plot (r : SimResults) : List (Nat × ℚ) := r.samples

/-- Modelled from the spec: the `Simulation(seq, sampling_rate=...)` object
with its evaluation times and currently attached noise configuration. -/
structure Simulation where
  seq : Sequence
  sampling_rate : ℚ
  evalTimes : List Nat
  config : Option SimConfig
deriving DecidableEq

def Simulation.set_config (sim : Simulation) (cfg : SimConfig) : Simulation :=
  { sim with config := some cfg }

def Simulation.reset_config (sim : Simulation) : Simulation :=
  { sim with config := none }

def Simulation.set_evaluation_times (sim : Simulation) (ts : List Nat) : Simulation :=
  { sim with evalTimes := ts }

def Simulation.show_config (sim : Simulation) : Option SimConfig := sim.config

/-- Modelled from the spec: a run with no configuration (or none of the SPAM
kind) is noiseless and coherent; a SPAM run with `eta = 0` applies the
measurement errors coherently; a SPAM run with nonzero `eta` must sample the
preparation errors and is noisy. -/
def runCfg (evalTs : List Nat) (seed : Nat) : Option SimConfig → SimResults
  | none => .CoherentResults (evalTs.map (fun t => (t, cleanPop t)))
  | some cfg =>
    if cfg.noise.contains "SPAM" then
      if cfg.eta = 0 then
        .CoherentResults (evalTs.map (fun t => (t, measured cfg (cleanPop t))))
      else
        .NoisyResults (evalTs.map (fun t => (t, noisyPop seed cfg t)))
    else .CoherentResults (evalTs.map (fun t => (t, cleanPop t)))

/-- Modelled from the spec: `sim.run()`; the simulator's internal sampling
randomness is exposed as the `seed` argument. -/
def Simulation.run (sim : Simulation) (seed : Nat) : SimResults :=
  runCfg sim.evalTimes seed sim.config

/-- The simulation object of the SPAM notebook (evaluation at the Rabi
peak step). -/
def simSpam : Simulation := ⟨spamSeq, 1 / 20, [10], none⟩

/-- The raised state-preparation error configuration of the notebook
(`eta = 0.4`), restricted to one run and no measurement errors. -/
def cfgC8 : SimConfig := ⟨["SPAM"], 2 / 5, 0, 0, 1, 5⟩

/-! ## Embedding of the notebooks' code cells

Transcribed statement by statement from the two notebooks' code cells.  Each
Python statement is abstracted to the names it defines and the names it
reads (Python builtins such as `print` and `int` are not tracked);
`tryExcept` represents an exception-handling construct, and `forHead`
introduces the loop variable of a `for` statement, whose body statements
follow it inline (Python loop scoping is flat). -/

inductive PyStmt where
  | imp (defines : List String)
  | assign (lhs : String) (reads : List String)
  | exprS (reads : List String)
  | forHead (v : String) (reads : List String)
  | tryExcept (reads : List String)
deriving DecidableEq

def PyStmt.definedNames : PyStmt → List String
  | .imp ds => ds
  | .assign l _ => [l]
  | .exprS _ => []
  | .forHead v _ => [v]
  | .tryExcept _ => []

def PyStmt.readNames : PyStmt → List String
  | .imp _ => []
  | .assign _ rs => rs
  | .exprS rs => rs
  | .forHead _ rs => rs
  | .tryExcept rs => rs

def PyStmt.isErrorHandling : PyStmt → Bool
  | .tryExcept _ => true
  | _ => false

/-- Every name read by a statement was defined by an earlier statement of the
same program (or was in the initial environment). -/
def closedUnder (env : List String) : List PyStmt → Bool
  | [] => true
  | st :: rest =>
    st.readNames.all (fun n => env.contains n) &&
      closedUnder (st.definedNames ++ env) rest

/-- The code cells of `tutorials/advanced_features/Serialization.ipynb`. -/
def serializationNotebook : List PyStmt := [
  -- cell 1: imports
  .imp ["np"], .imp ["Pulse", "Sequence", "Register"], .imp ["BlackmanWaveform"],
  .imp ["Chadoq2"],
  -- cell 2: building the Bell-state sequence
  .assign "qubits" [],
  .assign "reg" ["Register", "qubits"],
  .assign "seq" ["Sequence", "reg", "Chadoq2"],
  .assign "pulse_time" ["seq"],
  .exprS ["seq"],
  .exprS ["seq"],
  .assign "half_pi_wf" ["BlackmanWaveform", "pulse_time", "np"],
  .assign "ry" ["Pulse", "half_pi_wf", "np"],
  .assign "ry_dag" ["Pulse", "half_pi_wf", "np"],
  .exprS ["seq", "ry"],
  .exprS ["seq"],
  .exprS ["seq", "ry_dag"],
  .assign "pi_wf" ["BlackmanWaveform", "pulse_time", "np"],
  .assign "pi_pulse" ["Pulse", "pi_wf"],
  .assign "max_val" ["Chadoq2"],
  .assign "two_pi_wf" ["BlackmanWaveform", "max_val", "np"],
  .assign "two_pi_pulse" ["Pulse", "two_pi_wf"],
  .exprS ["seq"],
  .exprS ["seq", "pi_pulse"],
  .exprS ["seq"],
  .exprS ["seq", "two_pi_pulse"],
  .exprS ["seq"],
  .exprS ["seq", "pi_pulse"],
  .exprS ["seq"],
  .exprS ["seq", "ry"],
  .exprS ["seq"],
  .assign "seq1" ["seq"],
  .exprS ["seq1"],
  -- cell 3: serialize
  .assign "s" ["seq"],
  .exprS ["s"],
  -- cell 4: to_abstract_repr
  .assign "s_readable" ["seq"],
  .exprS ["s_readable"],
  -- cell 5: deserialize
  .assign "recovered_seq" ["Sequence", "s"],
  .exprS ["recovered_seq"],
  -- cell 6: from_abstract_repr
  .assign "recovered_seq_from_readable" ["Sequence", "s_readable"],
  .exprS ["recovered_seq_from_readable"]]

/-- The code cells of the SPAM-errors notebook. -/
def spamNotebook : List PyStmt := [
  -- cell 1: imports
  .imp ["np"], .imp ["plt"], .imp ["qutip"], .imp ["Register", "Pulse", "Sequence"],
  .imp ["SimConfig", "Simulation"], .imp ["Chadoq2"],
  -- cell 2: register
  .assign "reg" ["Register"],
  -- cell 3: sequence with a constant pulse
  .assign "seq" ["Sequence", "reg", "Chadoq2"],
  .exprS ["seq"],
  .assign "duration" [],
  .assign "pulse" ["Pulse", "duration", "np"],
  .exprS ["seq", "pulse"],
  .exprS ["seq"],
  -- cell 4: simulation object and observable
  .assign "sim" ["Simulation", "seq"],
  .assign "obs" ["qutip"],
  -- cell 5: SPAM configuration and noisy run
  .assign "config_spam" ["SimConfig"],
  .exprS ["sim", "config_spam"],
  .exprS ["sim"],
  .exprS ["sim"],
  .assign "res_spam" ["sim"],
  -- cell 6: plots, reset_config and noiseless run
  .exprS ["res_spam", "obs"],
  .exprS ["sim"],
  .assign "res_clean" ["sim"],
  .exprS ["res_clean", "obs"],
  .exprS ["plt"],
  .exprS ["plt"],
  .exprS ["plt"],
  -- cell 7: raised eta
  .assign "config_spam_mod" ["SimConfig"],
  .exprS ["sim", "config_spam_mod"],
  .exprS ["sim"],
  .assign "res_large_eta" ["sim"],
  .exprS ["plt"],
  .exprS ["plt"],
  .exprS ["plt", "config_spam_mod"],
  .exprS ["res_large_eta", "obs"],
  .exprS ["res_clean", "obs"],
  .exprS ["plt"],
  .exprS ["plt"],
  .exprS ["plt"],
  -- cell 8: eta sweep
  .exprS ["res_clean", "obs"],
  .forHead "eta" ["np"],
  .assign "config_spam_eta" ["SimConfig", "eta"],
  .exprS ["sim", "config_spam_eta"],
  .exprS ["sim", "obs", "eta"],
  .exprS ["plt"],
  .exprS ["plt"],
  .exprS ["plt"],
  -- cell 9: epsilon sweep
  .exprS ["res_clean", "obs"],
  .forHead "eps" ["np"],
  .assign "config_spam_eps" ["SimConfig", "eps"],
  .exprS ["sim", "config_spam_eps"],
  .exprS ["sim", "obs", "eps"],
  .exprS ["plt"],
  .exprS ["plt"],
  .exprS ["plt"],
  -- cell 10: epsilon_prime sweep
  .exprS ["res_clean", "obs"],
  .forHead "eps_p" ["np"],
  .assign "config_spam_eps_p" ["SimConfig", "eps_p"],
  .exprS ["sim", "config_spam_eps_p"],
  .exprS ["sim", "obs", "eps_p"],
  .exprS ["plt"],
  .exprS ["plt"],
  .exprS ["plt"]]

/-! ## Theorems -/

/-! ## Scanner lemmas -/

theorem skipWs_cons_nonws {c : Char} (s : List Char) (h : isWsChar c = false) :
    skipWs (c :: s) = c :: s := by
  simp [skipWs, h]

theorem skipWs_append (ws s : List Char) (h : ∀ c ∈ ws, isWsChar c = true) :
    skipWs (ws ++ s) = skipWs s := by
  induction ws with
  | nil => rfl
  | cons c cs ih =>
    simp only [List.cons_append, skipWs, h c (by simp), if_true]
    exact ih (fun x hx => h x (by simp [hx]))

theorem expectP_append (p s : List Char) : expectP p (p ++ s) = some s := by
  induction p with
  | nil => rfl
  | cons c cs ih => simp [expectP, ih]

theorem parseStrL_append (l r : List Char) (h : ∀ c ∈ l, wfChar c = true) :
    parseStrL (l ++ '"' :: r) = some (l, r) := by
  induction l with
  | nil => simp [parseStrL]
  | cons c cs ih =>
    have hc : wfChar c = true := h c (by simp)
    have hne : ¬(c = '"') := by
      intro he
      subst he
      simp [wfChar] at hc
    simp only [List.cons_append, parseStrL, if_neg hne]
    rw [List.append_eq, ih (fun x hx => h x (by simp [hx]))]
    rfl

theorem digitChar_isDigit (d : Nat) (h : d < 10) :
    isDigitC (Nat.digitChar d) = true := by
  interval_cases d <;> decide

theorem digitVal_digitChar (d : Nat) (h : d < 10) :
    digitVal (Nat.digitChar d) = d := by
  interval_cases d <;> decide

theorem natDigits_ne_nil (n : Nat) : natDigits n ≠ [] := by
  rw [natDigits]
  split
  · simp
  · simp

theorem natDigits_digits (n : Nat) : ∀ c ∈ natDigits n, isDigitC c = true := by
  induction n using Nat.strong_induction_on with
  | _ n ih =>
    rw [natDigits]
    split
    · next h =>
      intro c hc
      simp only [List.mem_singleton] at hc
      subst hc
      exact digitChar_isDigit n h
    · next h =>
      intro c hc
      rw [List.mem_append, List.mem_singleton] at hc
      have hlt : n / 10 < n := Nat.div_lt_self (by omega) (by omega)
      rcases hc with hc | hc
      · exact ih _ hlt c hc
      · subst hc
        exact digitChar_isDigit _ (Nat.mod_lt _ (by omega))

theorem digitsToNat_natDigits (n : Nat) : digitsToNat (natDigits n) = n := by
  induction n using Nat.strong_induction_on with
  | _ n ih =>
    rw [natDigits]
    split
    · next h =>
      simp [digitsToNat, digitVal_digitChar n h]
    · next h =>
      rw [digitsToNat, List.foldl_append]
      have hlt : n / 10 < n := Nat.div_lt_self (by omega) (by omega)
      have h1 : List.foldl (fun acc c => 10 * acc + digitVal c) 0 (natDigits (n / 10)) = n / 10 :=
        ih _ hlt
      rw [h1]
      simp only [List.foldl_cons, List.foldl_nil]
      rw [digitVal_digitChar _ (Nat.mod_lt _ (by omega))]
      omega

theorem isDigitC_ne {c x : Char} (h : isDigitC c = true) (hx : isDigitC x = false) :
    c ≠ x := by
  intro he
  rw [he, hx] at h
  cases h

theorem digit_not_ws {c : Char} (h : isDigitC c = true) : isWsChar c = false := by
  rw [isWsChar]
  apply decide_eq_false
  intro hor
  rcases hor with h1 | h1 | h1 | h1 <;> subst h1 <;> exact absurd h (by decide)

theorem takeDigits_append (ds r : List Char) (hds : ∀ c ∈ ds, isDigitC c = true)
    (hr : delimOk r = true) : takeDigits (ds ++ r) = (ds, r) := by
  induction ds with
  | nil =>
    cases r with
    | nil => rfl
    | cons c cs =>
      simp only [delimOk, Bool.not_eq_true'] at hr
      simp [takeDigits, hr]
  | cons c cs ih =>
    simp only [List.cons_append, takeDigits, hds c (by simp), if_true]
    rw [List.append_eq, ih (fun x hx => hds x (by simp [hx]))]

theorem parseNum_natDigits (n : Nat) (r : List Char) (hr : delimOk r = true) :
    parseNum (natDigits n ++ r) = some (n, r) := by
  rw [parseNum, takeDigits_append _ _ (natDigits_digits n) hr]
  simp [digitsToNat_natDigits, List.isEmpty_iff, natDigits_ne_nil n]

/-- The rendering of any value starts with a non-whitespace character that is
neither a closing bracket nor a closing brace. -/
theorem renderV_head (sep : List Char) (j : Json) :
    ∃ c cs, renderV sep j = c :: cs ∧ isWsChar c = false ∧ c ≠ ']' ∧ c ≠ rbr := by
  cases j with
  | jnull => refine ⟨'n', _, rfl, ?_, ?_, ?_⟩ <;> decide
  | jbool b =>
    cases b
    · refine ⟨'f', _, rfl, ?_, ?_, ?_⟩ <;> decide
    · refine ⟨'t', _, rfl, ?_, ?_, ?_⟩ <;> decide
  | jnum n =>
    by_cases hn : n < 0
    · exact ⟨'-', natDigits n.natAbs, by simp [renderV, hn], by decide, by decide, by decide⟩
    · obtain ⟨c, cs, hc⟩ : ∃ c cs, natDigits n.toNat = c :: cs := by
        cases he : natDigits n.toNat with
        | nil => exact absurd he (natDigits_ne_nil _)
        | cons c cs => exact ⟨c, cs, rfl⟩
      have hd : isDigitC c = true := natDigits_digits _ c (by rw [hc]; simp)
      exact ⟨c, cs, by simp [renderV, hn, hc], digit_not_ws hd,
        isDigitC_ne hd (by decide), isDigitC_ne hd (by decide)⟩
  | jstr s => refine ⟨'"', _, rfl, ?_, ?_, ?_⟩ <;> decide
  | jarr a => refine ⟨'[', _, rfl, ?_, ?_, ?_⟩ <;> decide
  | jobj o => refine ⟨lbr, _, rfl, ?_, ?_, ?_⟩ <;> decide

/-! Leading whitespace does not change the result of any of the scanners. -/

theorem parseV_ws (fuel : Nat) (ws s : List Char) (h : ∀ c ∈ ws, isWsChar c = true) :
    parseV fuel (ws ++ s) = parseV fuel s := by
  cases fuel with
  | zero => simp only [parseV]
  | succ f =>
    simp only [parseV]
    rw [skipWs_append ws s h]

theorem parseElems_ws (fuel : Nat) (ws s : List Char) (h : ∀ c ∈ ws, isWsChar c = true) :
    parseElems fuel (ws ++ s) = parseElems fuel s := by
  cases fuel with
  | zero => simp only [parseElems]
  | succ f =>
    simp only [parseElems]
    rw [parseV_ws f ws s h]

theorem parseFields_ws (fuel : Nat) (ws s : List Char) (h : ∀ c ∈ ws, isWsChar c = true) :
    parseFields fuel (ws ++ s) = parseFields fuel s := by
  cases fuel with
  | zero => simp only [parseFields]
  | succ f =>
    simp only [parseFields]
    rw [skipWs_append ws s h]

theorem strMk_data (s : String) : String.mk s.data = s := rfl

theorem delimOk_cons {c : Char} (X : List Char) (h : isDigitC c = false) :
    delimOk (c :: X) = true := by
  simp [delimOk, h]

theorem jsize_pos (j : Json) : 1 ≤ jsize j := by
  cases j <;> simp [jsize]

theorem optBind_some {α β : Type} (a : α) (f : α → Option β) :
    (Option.some a).bind f = f a := rfl

theorem optMap_some {α β : Type} (a : α) (f : α → β) :
    (Option.some a).map f = some (f a) := rfl

/-! ## The printer–scanner roundtrip

Parsing the rendering of any well-formed value, for any whitespace separator,
recovers the value exactly and leaves the trailing input untouched. -/

mutual
theorem parse_renderV (sep : List Char) (hsep : ∀ c ∈ sep, isWsChar c = true)
    (j : Json) (hwf : wfJ j = true) :
    ∀ fuel, jsize j ≤ fuel → ∀ rest, delimOk rest = true →
      parseV fuel (renderV sep j ++ rest) = some (j, rest) := by
  intro fuel hfuel rest hrest
  cases fuel with
  | zero => exact absurd (le_trans (jsize_pos j) hfuel) (by omega)
  | succ f =>
    cases j with
    | jnull =>
      simp only [renderV, List.cons_append, List.nil_append]
      simp only [parseV]
      rw [skipWs_cons_nonws _ (by decide)]
      simp only [parseTok]
      rw [if_neg (by decide), if_neg (by decide), if_pos (by trivial)]
      have he := expectP_append ['u', 'l', 'l'] rest
      simp only [List.cons_append, List.nil_append] at he
      rw [he]
      rfl
    | jbool b =>
      cases b with
      | true =>
        simp only [renderV, List.cons_append, List.nil_append]
        simp only [parseV]
        rw [skipWs_cons_nonws _ (by decide)]
        simp only [parseTok]
        rw [if_neg (by decide), if_neg (by decide), if_neg (by decide), if_pos (by trivial)]
        have he := expectP_append ['r', 'u', 'e'] rest
        simp only [List.cons_append, List.nil_append] at he
        rw [he]
        rfl
      | false =>
        simp only [renderV, List.cons_append, List.nil_append]
        simp only [parseV]
        rw [skipWs_cons_nonws _ (by decide)]
        simp only [parseTok]
        rw [if_neg (by decide), if_neg (by decide), if_neg (by decide), if_neg (by decide),
          if_pos (by trivial)]
        have he := expectP_append ['a', 'l', 's', 'e'] rest
        simp only [List.cons_append, List.nil_append] at he
        rw [he]
        rfl
    | jnum n =>
      by_cases hn : n < 0
      · simp only [renderV, if_pos hn, List.cons_append]
        simp only [parseV]
        rw [skipWs_cons_nonws _ (by decide)]
        simp only [parseTok]
        rw [if_neg (by decide), if_pos (by trivial)]
        rw [parseNum_natDigits _ _ hrest, optMap_some]
        have habs : (-(n.natAbs : Int)) = n := by omega
        rw [habs]
      · obtain ⟨c, cs, hc⟩ : ∃ c cs, natDigits n.toNat = c :: cs := by
          cases he : natDigits n.toNat with
          | nil => exact absurd he (natDigits_ne_nil _)
          | cons c cs => exact ⟨c, cs, rfl⟩
        have hd : isDigitC c = true := natDigits_digits _ c (by rw [hc]; simp)
        simp only [renderV, if_neg hn, hc, List.cons_append]
        simp only [parseV]
        rw [skipWs_cons_nonws _ (digit_not_ws hd)]
        simp only [parseTok]
        rw [if_pos hd, ← List.cons_append, ← hc, parseNum_natDigits _ _ hrest, optMap_some]
        have habs : (Int.ofNat n.toNat) = n := by
          rw [Int.ofNat_eq_coe]
          exact Int.toNat_of_nonneg (le_of_not_lt hn)
        rw [habs]
    | jstr s =>
      have hwfs : wfStr s = true := by simpa [wfJ] using hwf
      have hall : ∀ c ∈ s.data, wfChar c = true := by
        rw [wfStr, List.all_eq_true] at hwfs
        exact hwfs
      simp only [renderV, List.cons_append, List.append_assoc, List.nil_append]
      simp only [parseV]
      rw [skipWs_cons_nonws _ (by decide)]
      simp only [parseTok]
      rw [if_neg (by decide), if_neg (by decide), if_neg (by decide), if_neg (by decide),
        if_neg (by decide), if_pos (by trivial)]
      rw [parseStrL_append _ _ hall, optMap_some, strMk_data]
    | jarr a =>
      cases a with
      | nil =>
        simp only [renderV, renderA, List.cons_append, List.append_nil, List.nil_append,
          List.append_assoc]
        simp only [parseV]
        rw [skipWs_cons_nonws _ (by decide)]
        simp only [parseTok]
        rw [if_neg (by decide), if_neg (by decide), if_neg (by decide), if_neg (by decide),
          if_neg (by decide), if_neg (by decide), if_pos (by trivial)]
        rw [skipWs_append _ _ hsep, skipWs_cons_nonws _ (by decide)]
        simp only [parseArrBody]
        rw [if_pos (by trivial)]
      | cons hd tl =>
        have hwf2 : wfJ hd = true ∧ wfA tl = true := by
          have h2 : wfA (JsonArr.cons hd tl) = true := by simpa [wfJ] using hwf
          simpa [wfA, Bool.and_eq_true] using h2
        have hsz : asize (JsonArr.cons hd tl) ≤ f := by
          simp only [jsize] at hfuel
          omega
        obtain ⟨c0, cs0, hh, hnws, hne, _⟩ := renderV_head sep hd
        obtain ⟨X, hX⟩ : ∃ X, renderA sep (JsonArr.cons hd tl) ++ ']' :: rest = c0 :: X := by
          cases tl with
          | nil => exact ⟨cs0 ++ ']' :: rest, by rw [renderA, hh]; simp⟩
          | cons hd2 tl2 =>
            exact ⟨cs0 ++ ',' :: sep ++ renderA sep (JsonArr.cons hd2 tl2) ++ ']' :: rest,
              by rw [renderA, hh]; simp⟩
        simp only [renderV, List.cons_append, List.append_assoc, List.nil_append]
        simp only [parseV]
        rw [skipWs_cons_nonws _ (by decide)]
        simp only [parseTok]
        rw [if_neg (by decide), if_neg (by decide), if_neg (by decide), if_neg (by decide),
          if_neg (by decide), if_neg (by decide), if_pos (by trivial)]
        rw [skipWs_append _ _ hsep, hX, skipWs_cons_nonws _ hnws]
        simp only [parseArrBody]
        rw [if_neg hne, ← hX, parse_renderA sep hsep hd tl hwf2.1 hwf2.2 f hsz rest,
          optMap_some]
    | jobj o =>
      cases o with
      | nil =>
        simp only [renderV, renderO, List.cons_append, List.append_nil, List.nil_append,
          List.append_assoc]
        simp only [parseV]
        rw [skipWs_cons_nonws _ (by decide)]
        simp only [parseTok]
        rw [if_neg (by decide), if_neg (by decide), if_neg (by decide), if_neg (by decide),
          if_neg (by decide), if_neg (by decide), if_neg (by decide), if_pos (by trivial)]
        rw [skipWs_append _ _ hsep, skipWs_cons_nonws _ (by decide)]
        simp only [parseObjBody]
        rw [if_pos (by trivial)]
      | cons k v tl =>
        have hwf2 : wfStr k = true ∧ wfJ v = true ∧ wfO tl = true := by
          have h2 : wfO (JsonObj.cons k v tl) = true := by simpa [wfJ] using hwf
          simpa [wfO, Bool.and_eq_true, and_assoc] using h2
        have hsz : osize (JsonObj.cons k v tl) ≤ f := by
          simp only [jsize] at hfuel
          omega
        obtain ⟨X, hX⟩ : ∃ X, renderO sep (JsonObj.cons k v tl) ++ rbr :: rest = '"' :: X := by
          cases tl with
          | nil =>
            exact ⟨k.data ++ '"' :: ':' :: sep ++ renderV sep v ++ rbr :: rest,
              by rw [renderO]; simp⟩
          | cons k2 v2 tl2 =>
            exact ⟨k.data ++ '"' :: ':' :: sep ++ renderV sep v ++ ',' :: sep ++
                renderO sep (JsonObj.cons k2 v2 tl2) ++ rbr :: rest,
              by rw [renderO]; simp⟩
        simp only [renderV, List.cons_append, List.append_assoc, List.nil_append]
        simp only [parseV]
        rw [skipWs_cons_nonws _ (by decide)]
        simp only [parseTok]
        rw [if_neg (by decide), if_neg (by decide), if_neg (by decide), if_neg (by decide),
          if_neg (by decide), if_neg (by decide), if_neg (by decide), if_pos (by trivial)]
        rw [skipWs_append _ _ hsep, hX, skipWs_cons_nonws _ (by decide)]
        simp only [parseObjBody]
        rw [if_neg (by decide), ← hX,
          parse_renderO sep hsep k v tl hwf2.1 hwf2.2.1 hwf2.2.2 f hsz rest, optMap_some]
termination_by sizeOf j

theorem parse_renderA (sep : List Char) (hsep : ∀ c ∈ sep, isWsChar c = true)
    (hd : Json) (tl : JsonArr) (hwfhd : wfJ hd = true) (hwftl : wfA tl = true) :
    ∀ fuel, asize (JsonArr.cons hd tl) ≤ fuel → ∀ rest,
      parseElems fuel (renderA sep (JsonArr.cons hd tl) ++ ']' :: rest) =
        some (JsonArr.cons hd tl, rest) := by
  intro fuel hfuel rest
  cases fuel with
  | zero =>
    simp only [asize] at hfuel
    omega
  | succ f =>
    have hszhd : jsize hd ≤ f := by
      simp only [asize] at hfuel
      omega
    cases tl with
    | nil =>
      simp only [renderA, parseElems]
      rw [parse_renderV sep hsep hd hwfhd f hszhd (']' :: rest) (delimOk_cons _ (by decide)),
        optBind_some]
      rw [skipWs_cons_nonws _ (by decide)]
      simp only [elemsTail]
      rw [if_neg (by decide), if_pos (by trivial)]
    | cons hd2 tl2 =>
      have hwf2 : wfJ hd2 = true ∧ wfA tl2 = true := by
        simpa [wfA, Bool.and_eq_true] using hwftl
      have hsz2 : asize (JsonArr.cons hd2 tl2) ≤ f := by
        simp only [asize] at hfuel ⊢
        omega
      simp only [renderA, List.cons_append, List.append_assoc]
      simp only [parseElems]
      rw [parse_renderV sep hsep hd hwfhd f hszhd _ (delimOk_cons _ (by decide)), optBind_some]
      rw [skipWs_cons_nonws _ (by decide)]
      simp only [elemsTail]
      rw [if_pos (by trivial), parseElems_ws f sep _ hsep,
        parse_renderA sep hsep hd2 tl2 hwf2.1 hwf2.2 f hsz2 rest, optMap_some]
termination_by 1 + sizeOf hd + sizeOf tl

theorem parse_renderO (sep : List Char) (hsep : ∀ c ∈ sep, isWsChar c = true)
    (k : String) (v : Json) (tl : JsonObj)
    (hwfk : wfStr k = true) (hwfv : wfJ v = true) (hwftl : wfO tl = true) :
    ∀ fuel, osize (JsonObj.cons k v tl) ≤ fuel → ∀ rest,
      parseFields fuel (renderO sep (JsonObj.cons k v tl) ++ rbr :: rest) =
        some (JsonObj.cons k v tl, rest) := by
  intro fuel hfuel rest
  cases fuel with
  | zero =>
    simp only [osize] at hfuel
    omega
  | succ f =>
    have hszv : jsize v ≤ f := by
      simp only [osize] at hfuel
      omega
    have hallk : ∀ c ∈ k.data, wfChar c = true := by
      rw [wfStr, List.all_eq_true] at hwfk
      exact hwfk
    cases tl with
    | nil =>
      simp only [renderO, List.cons_append, List.append_assoc]
      simp only [parseFields]
      rw [skipWs_cons_nonws _ (by decide)]
      simp only [fieldsStart]
      rw [if_pos (by trivial), parseStrL_append _ _ hallk, optBind_some]
      rw [skipWs_cons_nonws _ (by decide)]
      simp only [fieldColon]
      rw [if_pos (by trivial), parseV_ws f sep _ hsep,
        parse_renderV sep hsep v hwfv f hszv _ (delimOk_cons _ (by decide)), optBind_some]
      rw [skipWs_cons_nonws _ (by decide)]
      simp only [fieldsTail]
      rw [if_neg (by decide), if_pos (by trivial), strMk_data]
    | cons k2 v2 tl2 =>
      have hwf2 : wfStr k2 = true ∧ wfJ v2 = true ∧ wfO tl2 = true := by
        simpa [wfO, Bool.and_eq_true, and_assoc] using hwftl
      have hsz2 : osize (JsonObj.cons k2 v2 tl2) ≤ f := by
        simp only [osize] at hfuel ⊢
        omega
      simp only [renderO, List.cons_append, List.append_assoc]
      simp only [parseFields]
      rw [skipWs_cons_nonws _ (by decide)]
      simp only [fieldsStart]
      rw [if_pos (by trivial), parseStrL_append _ _ hallk, optBind_some]
      rw [skipWs_cons_nonws _ (by decide)]
      simp only [fieldColon]
      rw [if_pos (by trivial), parseV_ws f sep _ hsep,
        parse_renderV sep hsep v hwfv f hszv _ (delimOk_cons _ (by decide)), optBind_some]
      rw [skipWs_cons_nonws _ (by decide)]
      simp only [fieldsTail]
      rw [if_pos (by trivial), parseFields_ws f sep _ hsep,
        parse_renderO sep hsep k2 v2 tl2 hwf2.1 hwf2.2.1 hwf2.2.2 f hsz2 rest,
        optMap_some, strMk_data]
termination_by 1 + sizeOf v + sizeOf tl
end

/-! The fuel demanded by a value is covered by the length of its rendering. -/

mutual
theorem jsize_le_renderV (sep : List Char) (j : Json) : jsize j ≤ (renderV sep j).length := by
  cases j with
  | jnull => simp [jsize, renderV]
  | jbool b => cases b <;> simp [jsize, renderV]
  | jnum n =>
    rw [jsize, renderV]
    split
    · simp
    · have := natDigits_ne_nil n.toNat
      cases he : natDigits n.toNat with
      | nil => exact absurd he this
      | cons c cs => simp [he]
  | jstr s => simp [jsize, renderV]
  | jarr a =>
    have := asize_le_renderA sep a
    simp only [jsize, renderV, List.length_append, List.length_cons]
    omega
  | jobj o =>
    have := osize_le_renderO sep o
    simp only [jsize, renderV, List.length_append, List.length_cons]
    omega

theorem asize_le_renderA (sep : List Char) (a : JsonArr) :
    asize a ≤ (renderA sep a).length + 1 := by
  cases a with
  | nil => simp [asize]
  | cons hd tl =>
    cases tl with
    | nil =>
      have := jsize_le_renderV sep hd
      simp only [asize, renderA]
      omega
    | cons hd2 tl2 =>
      have h1 := jsize_le_renderV sep hd
      have h2 := asize_le_renderA sep (JsonArr.cons hd2 tl2)
      simp only [asize, renderA, List.length_append, List.length_cons] at h2 ⊢
      omega

theorem osize_le_renderO (sep : List Char) (o : JsonObj) :
    osize o ≤ (renderO sep o).length + 1 := by
  cases o with
  | nil => simp [osize]
  | cons k v tl =>
    cases tl with
    | nil =>
      have := jsize_le_renderV sep v
      simp only [osize, renderO, List.length_append, List.length_cons]
      omega
    | cons k2 v2 tl2 =>
      have h1 := jsize_le_renderV sep v
      have h2 := osize_le_renderO sep (JsonObj.cons k2 v2 tl2)
      simp only [osize, renderO, List.length_append, List.length_cons] at h2 ⊢
      omega
end

/-- With fuel one beyond the text length, parsing the rendering of a
well-formed value succeeds and consumes the whole input. -/
theorem parse_render_full (sep : List Char) (hsep : ∀ c ∈ sep, isWsChar c = true)
    (j : Json) (hwf : wfJ j = true) :
    parseV ((renderV sep j).length + 1) (renderV sep j) = some (j, []) := by
  have h := parse_renderV sep hsep j hwf ((renderV sep j).length + 1)
    (by have := jsize_le_renderV sep j; omega) [] (by decide)
  simpa using h

/-- The rendering of a well-formed value is valid JSON text: the scanner
accepts it in full and returns the value itself. -/
theorem parseJsonText_render (sep : List Char) (hsep : ∀ c ∈ sep, isWsChar c = true)
    (j : Json) (hwf : wfJ j = true) :
    parseJsonText (String.mk (renderV sep j)) = some j := by
  rw [parseJsonText]
  rw [show (String.mk (renderV sep j)).data = renderV sep j from rfl]
  rw [parse_render_full sep hsep j hwf]

theorem sepOf_ws (opts : JsonDumpsOptions) : ∀ c ∈ sepOf opts, isWsChar c = true := by
  intro c hc
  rw [sepOf] at hc
  rcases hopt : opts.indent with _ | n <;> rw [hopt] at hc
  · cases hc
  · rcases List.mem_cons.mp hc with h | h
    · subst h; decide
    · rw [List.eq_of_mem_replicate h]; decide

/-! ## Decoding inverts encoding -/

theorem getField_cons_eq (k : String) (v : Json) (o : JsonObj) :
    getField (.cons k v o) k = some v := by
  simp [getField]

theorem getField_cons_ne {k key : String} (v : Json) (o : JsonObj) (h : k ≠ key) :
    getField (.cons k v o) key = getField o key := by
  simp [getField, h]

theorem decodeExpr_encode (e : Expr) : decodeExpr (encodeExpr e) = some e := by
  cases e <;> simp [encodeExpr, decodeExpr]

theorem decodeWaveform_encode (w : Waveform) :
    decodeWaveform (encodeWaveform w) = some w := by
  cases w <;> simp [encodeWaveform, decodeWaveform, getField, decodeExpr_encode]

theorem decodePulse_encode (p : Pulse) : decodePulse (encodePulse p) = some p := by
  cases p
  simp [encodePulse, decodePulse, getField, decodeWaveform_encode, decodeExpr_encode]

theorem decodeOp_encode (op : SeqOp) : decodeOp (encodeOp op) = some op := by
  cases op <;> simp [encodeOp, decodeOp, getField, decodePulse_encode]

theorem decodeOptStr_encode (t : Option String) :
    decodeOptStr (encodeOptStr t) = some t := by
  cases t <;> simp [encodeOptStr, decodeOptStr]

theorem decodeChannel_encode (c : Channel) :
    decodeChannel (encodeChannel c) = some c := by
  cases c
  simp [encodeChannel, decodeChannel, getField, decodeOptStr_encode]

theorem decodeQubit_encode (q : String × Int × Int) :
    decodeQubit (encodeQubit q) = some q := by
  simp [encodeQubit, decodeQubit, getField]

theorem arrToList_listToArr (l : List Json) : arrToList (listToArr l) = l := by
  induction l with
  | nil => rfl
  | cons j js ih => simp [listToArr, arrToList, ih]

theorem decodeListWith_encode {α : Type} (dec : Json → Option α) (enc : α → Json)
    (h : ∀ x, dec (enc x) = some x) (l : List α) :
    decodeListWith dec (.jarr (listToArr (l.map enc))) = some l := by
  rw [decodeListWith, arrToList_listToArr]
  induction l with
  | nil => rfl
  | cons x xs ih => simp [decodeList, h, ih]

theorem decodeCore_coreObj (s : Sequence) : decodeCore (coreObj s) = some s := by
  obtain ⟨⟨qs⟩, dev, vars, chs, ops⟩ := s
  rw [decodeCore, coreObj]
  simp +decide [getField, asStr,
    decodeListWith_encode decodeQubit encodeQubit decodeQubit_encode,
    decodeListWith_encode asStr Json.jstr (fun x => rfl),
    decodeListWith_encode decodeChannel encodeChannel decodeChannel_encode,
    decodeListWith_encode decodeOp encodeOp decodeOp_encode]

theorem decodeCore_skip (k : String) (v : Json) (o : JsonObj)
    (h1 : k ≠ "device") (h2 : k ≠ "register") (h3 : k ≠ "variables")
    (h4 : k ≠ "channels") (h5 : k ≠ "operations") :
    decodeCore (.cons k v o) = decodeCore o := by
  rw [decodeCore, decodeCore]
  rw [getField_cons_ne v o h1, getField_cons_ne v o h2, getField_cons_ne v o h3,
    getField_cons_ne v o h4, getField_cons_ne v o h5]

/-! ## The serialization entry points round-trip -/

theorem wfJ_jobj (o : JsonObj) : wfJ (.jobj o) = wfO o := by rw [wfJ]

theorem wfJ_jstr (s : String) : wfJ (.jstr s) = wfStr s := by rw [wfJ]

theorem wfO_cons (k : String) (v : Json) (tl : JsonObj) :
    wfO (.cons k v tl) = (wfStr k && wfJ v && wfO tl) := by rw [wfO]

theorem wfJ_legacy (s : Sequence) (hwf : wfSeq s = true) :
    wfJ (Json.jobj (.cons "__version__" (.jnum 1) (coreObj s))) = true := by
  rw [wfJ_jobj, wfO_cons, Bool.and_eq_true, Bool.and_eq_true]
  exact ⟨⟨by decide, by decide⟩, hwf⟩

theorem wfJ_abstract (s : Sequence) (nm : Option String) (hwf : wfSeq s = true)
    (hnm : wfStr (nm.getD "pulser-exported") = true) :
    wfJ (Json.jobj (.cons "name" (.jstr (nm.getD "pulser-exported")) (coreObj s))) = true := by
  rw [wfJ_jobj, wfO_cons, wfJ_jstr, Bool.and_eq_true, Bool.and_eq_true]
  exact ⟨⟨by decide, hnm⟩, hwf⟩

theorem deserialize_serialize (opts : JsonDumpsOptions) (s : Sequence)
    (hwf : wfSeq s = true) :
    Sequence.deserialize (Sequence.serialize opts s) = some s := by
  rw [Sequence.serialize, Sequence.deserialize]
  rw [parseJsonText_render (sepOf opts) (sepOf_ws opts) _ (wfJ_legacy s hwf)]
  rw [optBind_some, show jsonAsObj (Json.jobj (.cons "__version__" (.jnum 1) (coreObj s))) =
    some (.cons "__version__" (.jnum 1) (coreObj s)) from rfl, optBind_some,
    getField_cons_eq, optBind_some]
  rw [decodeCore_skip _ _ _ (by decide) (by decide) (by decide) (by decide) (by decide)]
  exact decodeCore_coreObj s

theorem from_abstract_to_abstract (opts : JsonDumpsOptions) (nm : Option String)
    (s : Sequence) (hwf : wfSeq s = true)
    (hnm : wfStr (nm.getD "pulser-exported") = true) :
    Sequence.from_abstract_repr (Sequence.to_abstract_repr opts nm s) = some s := by
  rw [Sequence.to_abstract_repr, Sequence.from_abstract_repr]
  rw [parseJsonText_render (sepOf opts) (sepOf_ws opts) _ (wfJ_abstract s nm hwf hnm)]
  rw [optBind_some, show jsonAsObj (Json.jobj (.cons "name"
    (.jstr (nm.getD "pulser-exported")) (coreObj s))) =
    some (.cons "name" (.jstr (nm.getD "pulser-exported")) (coreObj s)) from rfl, optBind_some]
  rw [decodeCore_skip _ _ _ (by decide) (by decide) (by decide) (by decide) (by decide)]
  exact decodeCore_coreObj s

/-! ## Claims C1, C2, C3 -/

/-- Claim C1: for every sequence built through the `Sequence` API (strings
containing no quote or backslash characters), both serialization pairs
round-trip: `deserialize` applied to the string produced by `serialize`
recovers the sequence exactly, and `from_abstract_repr` applied to the
string produced by `to_abstract_repr` likewise; in particular building the
recovered sequence with any variable values (e.g. `pulse_time = 200`) yields
the original built sequence. -/
theorem C1_serialization_roundtrip (opts : JsonDumpsOptions) (s : Sequence)
    (hwf : wfSeq s = true) :
    Sequence.deserialize (Sequence.serialize opts s) = some s ∧
    Sequence.from_abstract_repr (Sequence.to_abstract_repr opts none s) = some s ∧
    ∀ vals, (Sequence.deserialize (Sequence.serialize opts s)).map (Sequence.build vals) =
      some (Sequence.build vals s) := by
  refine ⟨deserialize_serialize opts s hwf,
    from_abstract_to_abstract opts none s hwf (by decide), ?_⟩
  intro vals
  rw [deserialize_serialize opts s hwf, optMap_some]

/-- Witness for C1 at the notebook's Bell-state sequence, with `indent = 1`
and the notebook's `pulse_time = 200` binding. -/
theorem C1_serialization_roundtrip_witness :
    Sequence.deserialize (Sequence.serialize ⟨some 1⟩ bellSeq) = some bellSeq ∧
    Sequence.from_abstract_repr (Sequence.to_abstract_repr ⟨some 1⟩ none bellSeq) =
      some bellSeq ∧
    (Sequence.deserialize (Sequence.serialize ⟨some 1⟩ bellSeq)).map
        (Sequence.build [("pulse_time", 200)]) =
      some (Sequence.build [("pulse_time", 200)] bellSeq) :=
  ⟨(C1_serialization_roundtrip ⟨some 1⟩ bellSeq (by decide)).1,
    (C1_serialization_roundtrip ⟨some 1⟩ bellSeq (by decide)).2.1,
    (C1_serialization_roundtrip ⟨some 1⟩ bellSeq (by decide)).2.2 [("pulse_time", 200)]⟩

/-- Claim C2: the `json_dumps_options` and `seq_name` arguments of
`to_abstract_repr` only set documentation metadata in the emitted JSON text:
the sequence reconstructed by `from_abstract_repr` is the same as with no
options given, namely the original sequence itself. -/
theorem C2_options_only_metadata (opts : JsonDumpsOptions) (nm : Option String)
    (s : Sequence) (hwf : wfSeq s = true)
    (hnm : wfStr (nm.getD "pulser-exported") = true) :
    Sequence.from_abstract_repr (Sequence.to_abstract_repr opts nm s) =
      Sequence.from_abstract_repr (Sequence.to_abstract_repr defaultDumps none s) ∧
    Sequence.from_abstract_repr (Sequence.to_abstract_repr opts nm s) = some s := by
  have h1 := from_abstract_to_abstract opts nm s hwf hnm
  have h2 := from_abstract_to_abstract defaultDumps none s hwf (by decide)
  exact ⟨h1.trans h2.symm, h1⟩

/-- Witness for C2 at the Bell-state sequence with the notebook's options
(`indent = 1`, `seq_name = "Sequence_with_defaults"`). -/
theorem C2_options_only_metadata_witness :
    Sequence.from_abstract_repr
        (Sequence.to_abstract_repr ⟨some 1⟩ (some "Sequence_with_defaults") bellSeq) =
      Sequence.from_abstract_repr (Sequence.to_abstract_repr defaultDumps none bellSeq) ∧
    Sequence.from_abstract_repr
        (Sequence.to_abstract_repr ⟨some 1⟩ (some "Sequence_with_defaults") bellSeq) =
      some bellSeq :=
  C2_options_only_metadata ⟨some 1⟩ (some "Sequence_with_defaults") bellSeq
    (by decide) (by decide)

/-- Claim C3: both serialization entry points produce JSON-formatted text —
the emitted strings are accepted in full by the JSON scanner — and both
deserialization entry points consume exactly such JSON text: they only
succeed on strings the JSON scanner accepts. -/
theorem C3_json_formatted (opts : JsonDumpsOptions) (nm : Option String)
    (s : Sequence) (hwf : wfSeq s = true)
    (hnm : wfStr (nm.getD "pulser-exported") = true) :
    (∃ j, parseJsonText (Sequence.serialize opts s) = some j) ∧
    (∃ j, parseJsonText (Sequence.to_abstract_repr opts nm s) = some j) ∧
    (∀ t x, Sequence.deserialize t = some x → ∃ j, parseJsonText t = some j) ∧
    (∀ t x, Sequence.from_abstract_repr t = some x → ∃ j, parseJsonText t = some j) := by
  refine ⟨⟨_, parseJsonText_render (sepOf opts) (sepOf_ws opts) _ (wfJ_legacy s hwf)⟩,
    ⟨_, parseJsonText_render (sepOf opts) (sepOf_ws opts) _ (wfJ_abstract s nm hwf hnm)⟩,
    ?_, ?_⟩
  · intro t x h
    cases hp : parseJsonText t with
    | none => rw [Sequence.deserialize, hp] at h; cases h
    | some j => exact ⟨j, rfl⟩
  · intro t x h
    cases hp : parseJsonText t with
    | none => rw [Sequence.from_abstract_repr, hp] at h; cases h
    | some j => exact ⟨j, rfl⟩

/-- Witness for C3 at the Bell-state sequence with the notebook's options. -/
theorem C3_json_formatted_witness :
    (∃ j, parseJsonText (Sequence.serialize ⟨some 1⟩ bellSeq) = some j) ∧
    (∃ j, parseJsonText
      (Sequence.to_abstract_repr ⟨some 1⟩ (some "Sequence_with_defaults") bellSeq) = some j) ∧
    (∃ j, parseJsonText (Sequence.serialize ⟨some 1⟩ bellSeq) = some j) ∧
    (∃ j, parseJsonText
      (Sequence.to_abstract_repr ⟨some 1⟩ (some "Sequence_with_defaults") bellSeq) = some j) :=
  ⟨(C3_json_formatted ⟨some 1⟩ (some "Sequence_with_defaults") bellSeq
      (by decide) (by decide)).1,
    (C3_json_formatted ⟨some 1⟩ (some "Sequence_with_defaults") bellSeq
      (by decide) (by decide)).2.1,
    (C3_json_formatted ⟨some 1⟩ (some "Sequence_with_defaults") bellSeq
      (by decide) (by decide)).2.2.1 _ bellSeq
      (deserialize_serialize ⟨some 1⟩ bellSeq (by decide)),
    (C3_json_formatted ⟨some 1⟩ (some "Sequence_with_defaults") bellSeq
      (by decide) (by decide)).2.2.2 _ bellSeq
      (from_abstract_to_abstract ⟨some 1⟩ (some "Sequence_with_defaults") bellSeq
        (by decide) (by decide))⟩

/-! Population bounds for the noisy simulation. -/

theorem cleanPop_nonneg (t : Nat) : 0 ≤ cleanPop t := by
  rw [cleanPop]
  positivity

theorem cleanPop_le_one (t : Nat) : cleanPop t ≤ 1 := by
  rw [cleanPop, div_le_one (by norm_num)]
  have h : min (t % 20) (20 - t % 20) ≤ 10 := by omega
  exact_mod_cast h

theorem goodCount_le_runs (seed : Nat) (cfg : SimConfig) :
    goodCount seed cfg ≤ cfg.runs := by
  have h := List.length_filter_le (wellPrepared seed cfg) (List.range cfg.runs)
  simpa [goodCount] using h

theorem measured_le (cfg : SimConfig) (p : ℚ) (hp0 : 0 ≤ p) (hp1 : p ≤ 1)
    (h0 : 0 ≤ cfg.epsilon) (h2 : cfg.epsilon + cfg.epsilon_prime ≤ 1) :
    measured cfg p ≤ 1 - cfg.epsilon_prime := by
  rw [measured]
  nlinarith

theorem measured_zero (cfg : SimConfig) : measured cfg 0 = cfg.epsilon := by
  rw [measured]
  ring

/-! ## Claims C4, C5, C8, C9, C10 -/

/-- Claim C4: `SimConfig` accepts the noise-category selector together with
the named error-rate parameters (`eta`, `epsilon`, `epsilon_prime`, `runs`,
`samples_per_run`); `sim.set_config` attaches the configuration, and
`sim.run`/plotting consume it (configurations with different rates produce
different plotted results). -/
theorem C4_simconfig_consumed (eta eps epsp : ℚ) (runs spr : Nat) (sim : Simulation)
    (seed : Nat) :
    ((SimConfig.mk ["SPAM"] eta eps epsp runs spr).noise = ["SPAM"] ∧
      (SimConfig.mk ["SPAM"] eta eps epsp runs spr).eta = eta ∧
      (SimConfig.mk ["SPAM"] eta eps epsp runs spr).epsilon = eps ∧
      (SimConfig.mk ["SPAM"] eta eps epsp runs spr).epsilon_prime = epsp ∧
      (SimConfig.mk ["SPAM"] eta eps epsp runs spr).runs = runs ∧
      (SimConfig.mk ["SPAM"] eta eps epsp runs spr).samples_per_run = spr) ∧
    (sim.set_config (SimConfig.mk ["SPAM"] eta eps epsp runs spr)).config =
      some (SimConfig.mk ["SPAM"] eta eps epsp runs spr) ∧
    (sim.set_config (SimConfig.mk ["SPAM"] eta eps epsp runs spr)).show_config =
      some (SimConfig.mk ["SPAM"] eta eps epsp runs spr) ∧
    (∃ cfg1 cfg2 : SimConfig, ((simSpam.set_config cfg1).run seed).plot ≠
      ((simSpam.set_config cfg2).run seed).plot) := by
  refine ⟨⟨rfl, rfl, rfl, rfl, rfl, rfl⟩, rfl, rfl,
    ⟨⟨["SPAM"], 0, 0, 0, 1, 5⟩, ⟨["SPAM"], 0, 0, 1, 1, 5⟩, ?_⟩⟩
  norm_num [Simulation.run, runCfg, simSpam, Simulation.set_config, SimResults.plot,
    SimResults.samples, measured, cleanPop]

/-- Claim C5: under a SPAM configuration with finitely many runs the noisy
simulation output is non-deterministic: two invocations of `sim.run` (two
draws of the sampling randomness) can produce different results objects. -/
theorem C5_nondeterministic :
    ∃ (cfg : SimConfig) (s1 s2 : Nat),
      cfg.noise = ["SPAM"] ∧ 0 < cfg.runs ∧
      (simSpam.set_config cfg).run s1 ≠ (simSpam.set_config cfg).run s2 := by
  refine ⟨⟨["SPAM"], 2 / 5, 0, 0, 1, 5⟩, 0, 1, rfl, by decide, ?_⟩
  norm_num [Simulation.run, runCfg, simSpam, Simulation.set_config, noisyPop, goodCount,
    wellPrepared, randQ, measured, cleanPop, List.range_succ, List.range_zero, List.filter]

/-- Counterexample to claim C8 as stated: with `eta = 0.4` and a single run
whose atom happens to be well prepared, the reported excited-state
population reaches 1, strictly above `1 - eta = 0.6`. -/
theorem C8_counterexample :
    ((simSpam.set_config cfgC8).run 1).samples = [(10, 1)] ∧
    1 - cfgC8.eta < (1 : ℚ) := by
  constructor
  · norm_num [Simulation.run, runCfg, simSpam, cfgC8, Simulation.set_config, noisyPop,
      goodCount, wellPrepared, randQ, measured, cleanPop, List.range_succ, List.range_zero, List.filter,
      SimResults.samples]
  · norm_num [cfgC8]

/-- Claim C8 (amended): the reported population is bounded not by `1 - eta`
but by the empirical preparation rate of that execution: it never exceeds
`(g·(1 - epsilon_prime) + (runs - g)·epsilon) / runs`, where `g` is the
number of well-prepared runs; with no false positives (`epsilon = 0`) it
never exceeds the fraction `g / runs` of well-prepared runs — badly prepared
atoms are not used at all. -/
theorem C8_population_bound (seed : Nat) (cfg : SimConfig) (t : Nat)
    (h0 : 0 ≤ cfg.epsilon) (h1 : 0 ≤ cfg.epsilon_prime)
    (h2 : cfg.epsilon + cfg.epsilon_prime ≤ 1) (hr : 0 < cfg.runs) :
    noisyPop seed cfg t ≤ ((goodCount seed cfg : ℚ) * (1 - cfg.epsilon_prime) +
      ((cfg.runs : ℚ) - (goodCount seed cfg : ℚ)) * cfg.epsilon) / (cfg.runs : ℚ) ∧
    (cfg.epsilon = 0 →
      noisyPop seed cfg t ≤ (goodCount seed cfg : ℚ) / (cfg.runs : ℚ)) := by
  have hg0 : (0 : ℚ) ≤ (goodCount seed cfg : ℚ) := by positivity
  have hgr : (goodCount seed cfg : ℚ) ≤ (cfg.runs : ℚ) := by
    exact_mod_cast goodCount_le_runs seed cfg
  have hrQ : (0 : ℚ) < (cfg.runs : ℚ) := by exact_mod_cast hr
  have hm := measured_le cfg (cleanPop t) (cleanPop_nonneg t) (cleanPop_le_one t) h0 h2
  have key : noisyPop seed cfg t ≤ ((goodCount seed cfg : ℚ) * (1 - cfg.epsilon_prime) +
      ((cfg.runs : ℚ) - (goodCount seed cfg : ℚ)) * cfg.epsilon) / (cfg.runs : ℚ) := by
    rw [noisyPop, measured_zero, div_le_div_iff_of_pos_right hrQ]
    have := mul_le_mul_of_nonneg_left hm hg0
    linarith
  refine ⟨key, fun heps => ?_⟩
  refine le_trans key ?_
  rw [heps, div_le_div_iff_of_pos_right hrQ]
  nlinarith

/-- Witness for C8 (amended) at the notebook's raised-eta configuration. -/
theorem C8_population_bound_witness :
    noisyPop 1 cfgC8 10 ≤ ((goodCount 1 cfgC8 : ℚ) * (1 - cfgC8.epsilon_prime) +
      ((cfgC8.runs : ℚ) - (goodCount 1 cfgC8 : ℚ)) * cfgC8.epsilon) / (cfgC8.runs : ℚ) ∧
    (cfgC8.epsilon = 0 →
      noisyPop 1 cfgC8 10 ≤ (goodCount 1 cfgC8 : ℚ) / (cfgC8.runs : ℚ)) :=
  C8_population_bound 1 cfgC8 10 (by norm_num [cfgC8]) (by norm_num [cfgC8])
    (by norm_num [cfgC8]) (by norm_num [cfgC8])

/-- Claim C9: under a SPAM configuration with valid rates, `sim.run` returns
a `CoherentResults` object exactly when the state-preparation error rate
`eta` is zero (measurement errors are applied coherently), and a
`NoisyResults` object exactly when `eta` is positive (preparation errors
must be sampled). -/
theorem C9_results_type (sim : Simulation) (cfg : SimConfig) (seed : Nat)
    (hc : sim.config = some cfg) (hs : cfg.noise.contains "SPAM" = true)
    (hv : 0 ≤ cfg.eta) :
    (((sim.run seed).isCoherent = true) ↔ cfg.eta = 0) ∧
    (((sim.run seed).isNoisy = true) ↔ 0 < cfg.eta) := by
  rw [Simulation.run, hc]
  by_cases he : cfg.eta = 0
  · rw [runCfg, if_pos hs, if_pos he]
    constructor
    · simp [SimResults.isCoherent, he]
    · simp [SimResults.isNoisy, he]
  · rw [runCfg, if_pos hs, if_neg he]
    constructor
    · simp [SimResults.isCoherent, he]
    · simp [SimResults.isNoisy]
      exact lt_of_le_of_ne hv (fun h => he h.symm)

/-- Witness for C9 at a coherent-eta configuration of the notebook's epsilon
sweep shape. -/
theorem C9_results_type_witness :
    ((((Simulation.mk spamSeq (1 / 20) [10]
        (some ⟨["SPAM"], 0, 1 / 2, 0, 50, 5⟩)).run 3).isCoherent = true) ↔
      (SimConfig.mk ["SPAM"] 0 (1 / 2) 0 50 5).eta = 0) ∧
    ((((Simulation.mk spamSeq (1 / 20) [10]
        (some ⟨["SPAM"], 0, 1 / 2, 0, 50, 5⟩)).run 3).isNoisy = true) ↔
      0 < (SimConfig.mk ["SPAM"] 0 (1 / 2) 0 50 5).eta) :=
  C9_results_type _ _ 3 rfl (by decide) (by norm_num)

/-- Claim C10: `sim.reset_config()` undoes a previous `sim.set_config(...)`:
the simulation object equals the one obtained by resetting the original, and
a subsequent `sim.run()` returns the noiseless result, identical to running
a simulation on which no noise configuration was ever set. -/
theorem C10_reset_config (sim : Simulation) (cfg : SimConfig) (seed : Nat) :
    (sim.set_config cfg).reset_config = sim.reset_config ∧
    ((sim.set_config cfg).reset_config).run seed =
      (Simulation.mk sim.seq sim.sampling_rate sim.evalTimes none).run seed ∧
    ((sim.set_config cfg).reset_config).run seed =
      SimResults.CoherentResults (sim.evalTimes.map (fun t => (t, cleanPop t))) :=
  ⟨rfl, rfl, rfl⟩

/-! ## Claims C6 and C7 -/

/-- Claim C6: no error handling exists anywhere in the material — no
statement of any code cell of either notebook is an exception-handling,
retry, or failure branch. -/
theorem C6_no_error_handling :
    (serializationNotebook ++ spamNotebook).all (fun st => !st.isErrorHandling) = true := by
  decide

/-- Claim C7: the two notebooks are independent: each is closed — every name
a statement reads was defined by an earlier statement of the same notebook —
so no name defined in one notebook is read in the other, and executing or
modifying either has no effect on the other's results. -/
theorem C7_notebooks_independent :
    closedUnder [] serializationNotebook = true ∧ closedUnder [] spamNotebook = true := by
  constructor <;> decide

end PulserSpec
